import Mathlib

/-!
Verification of the spatial-occupancy / constrained-placement core of
src/lowpoly.js (procedural road network + ground tiling).

Shallow embedding conventions:
* JS numbers are modelled as rationals; the world coordinates manipulated
  here are sums/products of small literals, exact in IEEE doubles, so the
  rational model agrees with the JS semantics on everything proved below.
* JS string cell keys of the shape "gx,gz" are modelled as integer pairs
  (the key-building function is injective, so the Set of strings and the
  Finset of pairs behave identically).
* JS Math.round rounds half toward positive infinity, which is exactly
  Mathlib round on rationals.
* JS Maps are modelled as association lists with first-hit lookup, JS Sets
  of keys as Finsets.
-/

/-- Discretized grid cell: integer coordinate pair, standing for the JS
string key produced from it. -/
abbrev Cell := ℤ × ℤ

/-- World-space point (THREE.Vector3). -/
structure Pt3 where
  x : ℚ
  y : ℚ
  z : ℚ
deriving DecidableEq, Repr

/-- Orientation (THREE.Quaternion); carried around opaquely by the
generators, never interpreted arithmetically in the code paths modelled. -/
structure Quat where
  qx : ℚ
  qy : ℚ
  qz : ℚ
  qw : ℚ
deriving DecidableEq, Repr

/-- Identity quaternion (THREE.Quaternion default: x=y=z=0, w=1). -/
def idQuat : Quat := ⟨0, 0, 0, 1⟩

/-- this.GRID_CELL_SIZE = 2 (fine collision cells, lowpoly.js line 67). -/
def GRID_CELL_SIZE : ℚ := 2

/-- this.TILE_SIZE = 10 (coarse tile cells, lowpoly.js line 71). -/
def TILE_SIZE : ℚ := 10

/-- Value stored per coarse cell in this.worldGrid. The source only ever
stores entries with type tag grass (spawnGrassTile, line 2256). -/
inductive GridEntry where
  | grass
deriving DecidableEq, Repr

/-- this.worldGrid: Map "x,z" -> entry, as an association list. -/
abbrev WorldGrid := List (Cell × GridEntry)

/-- Map.get: first entry with the given key. -/
def gridGet (g : WorldGrid) (c : Cell) : Option GridEntry :=
  (g.find? (fun p => p.1 == c)).map Prod.snd

/-- Map.has. -/
def gridHas (g : WorldGrid) (c : Cell) : Bool :=
  (gridGet g c).isSome

/-- Map.delete: drop the entry with the given key. -/
def gridDelete (g : WorldGrid) (c : Cell) : WorldGrid :=
  g.filter (fun p => !(p.1 == c))

/-- A committed road piece as the engine later re-reads it: world position
of its origin and, when the clone has a socket_out descendant, the world
transform of that socket. -/
structure PlacedPiece where
  start : Pt3
  sockOut : Option (Pt3 × Quat)
deriving DecidableEq, Repr

/-- The mutable viewer state touched by road generation and ground fill:
this.occupiedCells (fine cells), this.worldGrid (coarse cells),
this.groundTiles (grass tile meshes, identified by their grid cell), and
this.roadPieces. -/
structure RoadState where
  occupiedCells : Finset Cell
  worldGrid : WorldGrid
  groundTiles : List Cell
  roadPieces : List PlacedPiece

/-- spawnGrassTile(gridX, gridZ), lowpoly.js lines 2217-2259: abort when
the coarse cell is already in worldGrid, otherwise push a tile and
register the grass entry. -/
def spawnGrassTile (gx gz : ℤ) (st : RoadState) : RoadState :=
  let key : Cell := (gx, gz)
  if gridHas st.worldGrid key then st
  else { st with
           groundTiles := st.groundTiles ++ [key],
           worldGrid := st.worldGrid ++ [(key, GridEntry.grass)] }

/-- The x (equally z) coordinates visited by the generateGroundGrid loops:
for (x = -halfGrid; x < halfGrid; x++) with halfGrid = floor(gridSize/2). -/
def gridCoords (gridSize : ℕ) : List ℤ :=
  (List.range (2 * (gridSize / 2))).map (fun (a : ℕ) => (a : ℤ) - (gridSize / 2 : ℕ))

/-- generateGroundGrid(gridSize), lowpoly.js lines 2262-2283: clear all
tiles and the whole worldGrid, then spawn a grass tile at every cell of
the centered square (x outer loop, z inner loop). -/
def generateGroundGrid (gridSize : ℕ) (st : RoadState) : RoadState :=
  let cleared := { st with groundTiles := ([] : List Cell), worldGrid := ([] : WorldGrid) }
  (gridCoords gridSize).foldl
    (fun st1 x => (gridCoords gridSize).foldl (fun st2 z => spawnGrassTile x z st2) st1)
    cleared

/-! Helper lemmas describing the ground fill. -/

/-- The pure effect of spawnGrassTile on the (groundTiles, worldGrid) pair. -/
def spawnGrassTilePure (c : Cell) (p : List Cell × WorldGrid) : List Cell × WorldGrid :=
  if gridHas p.2 c then p
  else (p.1 ++ [c], p.2 ++ [(c, GridEntry.grass)])

theorem spawnGrassTile_eq (gx gz : ℤ) (st : RoadState) :
    spawnGrassTile gx gz st =
      { st with
          groundTiles := (spawnGrassTilePure (gx, gz) (st.groundTiles, st.worldGrid)).1,
          worldGrid := (spawnGrassTilePure (gx, gz) (st.groundTiles, st.worldGrid)).2 } := by
  unfold spawnGrassTile spawnGrassTilePure
  by_cases h : gridHas st.worldGrid (gx, gz) <;> simp [h]

theorem foldl_spawn_eq (l : List Cell) (st : RoadState) :
    l.foldl (fun s c => spawnGrassTile c.1 c.2 s) st =
      { st with
          groundTiles := (l.foldl (fun p c => spawnGrassTilePure c p) (st.groundTiles, st.worldGrid)).1,
          worldGrid := (l.foldl (fun p c => spawnGrassTilePure c p) (st.groundTiles, st.worldGrid)).2 } := by
  induction l generalizing st with
  | nil => rfl
  | cons c l ih =>
      simp only [List.foldl_cons]
      rw [ih, spawnGrassTile_eq]

theorem foldl_nested_product (xs zs : List ℤ) (st : RoadState) :
    xs.foldl (fun s1 x => zs.foldl (fun s2 z => spawnGrassTile x z s2) s1) st =
      (xs ×ˢ zs).foldl (fun s c => spawnGrassTile c.1 c.2 s) st := by
  induction xs generalizing st with
  | nil => rfl
  | cons x xs ih =>
      simp only [List.foldl_cons, List.product_cons, List.foldl_append, List.foldl_map]
      exact ih _

theorem gridHas_append_single (w : WorldGrid) (c c' : Cell) (e : GridEntry) :
    gridHas (w ++ [(c, e)]) c' = (gridHas w c' || c' == c) := by
  simp only [gridHas, gridGet, List.find?_append]
  cases h : w.find? (fun p => p.1 == c') with
  | some v => simp [Option.or, h]
  | none =>
      simp only [Option.or, h]
      by_cases hc : c = c'
      · subst hc; simp
      · have h1 : (c == c') = false := by simp [hc]
        have h2 : (c' == c) = false := by simp [Ne.symm hc]
        simp [List.find?, h1, h2]

theorem foldl_spawnPure_fresh (l : List Cell) (g : List Cell) (w : WorldGrid)
    (hfresh : ∀ c ∈ l, gridHas w c = false) (hnd : l.Nodup) :
    l.foldl (fun p c => spawnGrassTilePure c p) (g, w) =
      (g ++ l, w ++ l.map (fun c => (c, GridEntry.grass))) := by
  induction l generalizing g w with
  | nil => simp
  | cons c l ih =>
      have hc : gridHas w c = false := hfresh c (List.mem_cons_self ..)
      have hstep : spawnGrassTilePure c (g, w) = (g ++ [c], w ++ [(c, GridEntry.grass)]) := by
        simp [spawnGrassTilePure, hc]
      have hnd' : l.Nodup := hnd.of_cons
      have hne : ∀ c' ∈ l, c' ≠ c := by
        intro c' hc' h
        exact (List.nodup_cons.mp hnd).1 (h ▸ hc')
      have hfresh' : ∀ c' ∈ l, gridHas (w ++ [(c, GridEntry.grass)]) c' = false := by
        intro c' hc'
        rw [gridHas_append_single]
        simp [hfresh c' (List.mem_cons_of_mem _ hc'), hne c' hc']
      rw [List.foldl_cons, hstep, ih (g ++ [c]) (w ++ [(c, GridEntry.grass)]) hfresh' hnd']
      simp

theorem gridCoords_nodup (N : ℕ) : (gridCoords N).Nodup := by
  unfold gridCoords
  refine List.Nodup.map ?_ (List.nodup_range _)
  intro a b h
  dsimp only at h
  omega

theorem mem_gridCoords (N : ℕ) (x : ℤ) :
    x ∈ gridCoords N ↔ -((N / 2 : ℕ) : ℤ) ≤ x ∧ x < ((N / 2 : ℕ) : ℤ) := by
  unfold gridCoords
  simp only [List.mem_map, List.mem_range]
  constructor
  · rintro ⟨a, ha, rfl⟩
    omega
  · rintro ⟨h1, h2⟩
    refine ⟨(x + ((N / 2 : ℕ) : ℤ)).toNat, ?_, ?_⟩ <;> omega

/-- Closed form of generateGroundGrid: the incoming tiles and worldGrid are
discarded and every cell of the centered square receives a grass tile,
independently of road occupancy. -/
theorem generateGroundGrid_eq (N : ℕ) (st : RoadState) :
    generateGroundGrid N st =
      { st with
          groundTiles := gridCoords N ×ˢ gridCoords N,
          worldGrid := (gridCoords N ×ˢ gridCoords N).map (fun c => (c, GridEntry.grass)) } := by
  unfold generateGroundGrid
  rw [foldl_nested_product, foldl_spawn_eq,
    foldl_spawnPure_fresh _ _ _ (by intro c _; rfl)
      ((gridCoords_nodup N).product (gridCoords_nodup N))]
  simp

/-- A viewer state with nothing placed yet. -/
def emptyRoadState : RoadState := ⟨∅, [], [], []⟩

/-- C7: ground filling is idempotent per invocation: calling
generateGroundGrid with the same size twice in a row yields the same final
state, tile count and tile positions as calling it once, because every
invocation first clears all previously filled tiles and the occupancy
entries before re-filling. -/
theorem generateGroundGrid_idempotent (N : ℕ) (st : RoadState) :
    generateGroundGrid N (generateGroundGrid N st) = generateGroundGrid N st ∧
    (generateGroundGrid N (generateGroundGrid N st)).groundTiles.length
      = (generateGroundGrid N st).groundTiles.length ∧
    (generateGroundGrid N (generateGroundGrid N st)).groundTiles
      = (generateGroundGrid N st).groundTiles := by
  have h : generateGroundGrid N (generateGroundGrid N st) = generateGroundGrid N st := by
    rw [generateGroundGrid_eq N (generateGroundGrid N st), generateGroundGrid_eq N st]
  exact ⟨h, by rw [h], by rw [h]⟩

/-- C10: for every gridSize N at least 1, generateGroundGrid N places
exactly (2 * floor (N / 2)) ^ 2 ground tiles, one per coarse coordinate
pair in the square from -floor(N/2) (inclusive) to floor(N/2) (exclusive);
in particular N = 4 places exactly 16 tiles at coordinates -2..1, and an
odd N places (N-1)^2 tiles rather than N^2. -/
theorem generateGroundGrid_count (N : ℕ) (st : RoadState) (hN : 1 ≤ N) :
    (generateGroundGrid N st).groundTiles.length = (2 * (N / 2)) ^ 2 ∧
    (generateGroundGrid N st).groundTiles.Nodup ∧
    (∀ c : Cell, c ∈ (generateGroundGrid N st).groundTiles ↔
      (-((N / 2 : ℕ) : ℤ) ≤ c.1 ∧ c.1 < ((N / 2 : ℕ) : ℤ) ∧
       -((N / 2 : ℕ) : ℤ) ≤ c.2 ∧ c.2 < ((N / 2 : ℕ) : ℤ))) ∧
    (generateGroundGrid 4 st).groundTiles.length = 16 ∧
    (N % 2 = 1 → (generateGroundGrid N st).groundTiles.length = (N - 1) ^ 2) := by
  have hlen : ∀ M : ℕ, (generateGroundGrid M st).groundTiles.length = (2 * (M / 2)) ^ 2 := by
    intro M
    rw [generateGroundGrid_eq]
    simp only [List.length_product, gridCoords, List.length_map, List.length_range]
    rw [pow_two]
  refine ⟨hlen N, ?_, ?_, ?_, ?_⟩
  · rw [generateGroundGrid_eq]
    exact (gridCoords_nodup N).product (gridCoords_nodup N)
  · intro c
    obtain ⟨a, b⟩ := c
    rw [generateGroundGrid_eq]
    show (a, b) ∈ gridCoords N ×ˢ gridCoords N ↔ _
    rw [List.mem_product, mem_gridCoords, mem_gridCoords]
    tauto
  · rw [hlen 4]
    norm_num
  · intro hodd
    rw [hlen N]
    have : N / 2 = (N - 1) / 2 := by omega
    have h2 : 2 * (N / 2) = N - 1 := by omega
    rw [h2]

/-- Witness for C10 at the concrete input N = 4 on an empty state. -/
theorem generateGroundGrid_count_witness :
    (1 ≤ 4) ∧
    ((generateGroundGrid 4 emptyRoadState).groundTiles.length = (2 * (4 / 2)) ^ 2 ∧
     (generateGroundGrid 4 emptyRoadState).groundTiles.Nodup ∧
     (∀ c : Cell, c ∈ (generateGroundGrid 4 emptyRoadState).groundTiles ↔
       (-((4 / 2 : ℕ) : ℤ) ≤ c.1 ∧ c.1 < ((4 / 2 : ℕ) : ℤ) ∧
        -((4 / 2 : ℕ) : ℤ) ≤ c.2 ∧ c.2 < ((4 / 2 : ℕ) : ℤ))) ∧
     (generateGroundGrid 4 emptyRoadState).groundTiles.length = 16 ∧
     (4 % 2 = 1 → (generateGroundGrid 4 emptyRoadState).groundTiles.length = (4 - 1) ^ 2)) :=
  ⟨by decide, generateGroundGrid_count 4 emptyRoadState (by decide)⟩

/-! ConnectorGraph: socket lookup on the scene graph. -/

/-- A scene-graph object (THREE.Object3D): a name plus attached children. -/
inductive Obj where
  | node (name : String) (children : List Obj)

/-- child.name. -/
def Obj.name : Obj → String
  | .node n _ => n

/- THREE.Object3D.traverse visit order: the object itself first, then each
child subtree in order (depth-first preorder). -/
mutual
def traverseList : Obj → List Obj
  | .node n cs => .node n cs :: traverseChildren cs
def traverseChildren : List Obj → List Obj
  | [] => []
  | o :: os => traverseList o ++ traverseChildren os
end

/-- The callback pattern shared by findSocket, findSocketOut and
findSocketIn: model.traverse overwrites the captured result variable on
every match, so the LAST matching node of the traversal wins. -/
def lastMatch (p : Obj → Bool) (root : Obj) : Option Obj :=
  (traverseList root).foldl (fun acc c => if p c then some c else acc) none

def isPrefixChars : List Char → List Char → Bool
  | [], _ => true
  | _ :: _, [] => false
  | a :: as, b :: bs => a == b && isPrefixChars as bs

/-- JS String.prototype.includes: does the needle occur contiguously in the
haystack. -/
def containsChars (hay needle : List Char) : Bool :=
  if isPrefixChars needle hay then true
  else match hay with
    | [] => false
    | _ :: t => containsChars t needle

def strIncludes (s pat : String) : Bool :=
  containsChars s.data pat.data

/-- JS String.prototype.toLowerCase (socket names are plain ASCII). -/
def lowerStr (s : String) : String := String.mk (s.data.map Char.toLower)

/-- findSocket helper of System 3, lowpoly.js lines 3059-3076: a pass
looking for exact (case-insensitive) name equality, then a fallback pass
for containment; each pass keeps the last traversal match. -/
def findSocket (model : Obj) (socketName : String) : Option Obj :=
  match lastMatch (fun c => lowerStr c.name == lowerStr socketName) model with
  | some s => some s
  | none => lastMatch (fun c => strIncludes (lowerStr c.name) (lowerStr socketName)) model

/-- The match condition of findSocketOut, lowpoly.js line 2936. -/
def socketOutPred (c : Obj) : Bool :=
  strIncludes (lowerStr c.name) "socket_out" ||
    (strIncludes (lowerStr c.name) "socket" && !(strIncludes (lowerStr c.name) "socket_in"))

/-- findSocketOut, lowpoly.js lines 2932-2941. -/
def findSocketOut (model : Obj) : Option Obj :=
  lastMatch socketOutPred model

/-- Socket lookup as the spec describes it: the FIRST node in depth-first
traversal order whose name contains the pattern case-insensitively, or
none. Modelled from the spec wording for the claim C2 comparison. -/
def findSocketSpec (model : Obj) (socketName : String) : Option Obj :=
  (traverseList model).find? (fun c => strIncludes (lowerStr c.name) (lowerStr socketName))

theorem getLast?_cons_or {α : Type} (a : α) (xs : List α) :
    (a :: xs).getLast? = xs.getLast?.or (some a) := by
  induction xs generalizing a with
  | nil => rfl
  | cons b t ih =>
      rw [List.getLast?_cons_cons, ih b]
      cases t.getLast? <;> rfl

theorem foldl_lastMatch (p : Obj → Bool) (l : List Obj) (init : Option Obj) :
    l.foldl (fun acc c => if p c then some c else acc) init =
      ((l.filter p).getLast?).or init := by
  induction l generalizing init with
  | nil => rfl
  | cons a l ih =>
      rw [List.foldl_cons, ih]
      cases h : p a with
      | false =>
          have hf : (a :: l).filter p = l.filter p := by simp [List.filter_cons, h]
          rw [hf]
          simp
      | true =>
          have hf : (a :: l).filter p = a :: l.filter p := by simp [List.filter_cons, h]
          rw [hf, getLast?_cons_or]
          cases (l.filter p).getLast? <;> simp

theorem lastMatch_eq (p : Obj → Bool) (root : Obj) :
    lastMatch p root = ((traverseList root).filter p).getLast? := by
  rw [lastMatch, foldl_lastMatch]
  cases ((traverseList root).filter p).getLast? <;> rfl

/-- A model hierarchy with two socket children, used to separate first- and
last-match semantics. -/
def exSocketTree : Obj :=
  .node "root" [.node "Socket_A" [], .node "socket_B" []]

/-- C2 counterexample: on a piece whose traversal holds two nodes matching
the pattern "socket", the code (findSocket) returns the LAST match of the
depth-first traversal, while the claim says the first match is returned;
the two results differ. -/
theorem findSocket_counterexample :
    findSocket exSocketTree "socket" = some (Obj.node "socket_B" []) ∧
    findSocketSpec exSocketTree "socket" = some (Obj.node "Socket_A" []) ∧
    findSocket exSocketTree "socket" ≠ findSocketSpec exSocketTree "socket" := by
  refine ⟨rfl, rfl, ?_⟩
  intro h
  rw [show findSocket exSocketTree "socket" = some (Obj.node "socket_B" []) from rfl,
    show findSocketSpec exSocketTree "socket" = some (Obj.node "Socket_A" []) from rfl] at h
  injection h with h1
  injection h1 with h2
  exact absurd h2 (by decide)

/-- C2 amended: for every piece and pattern, findSocket returns the last
node in depth-first traversal order whose name matches case-insensitively,
preferring an exact-name match over a containment match (and none when no
node matches); findSocketOut likewise returns the last traversal node
whose lower-cased name contains "socket_out", or contains "socket" without
containing "socket_in". -/
theorem findSocket_lastMatch (model : Obj) (socketName : String) :
    (findSocket model socketName =
      match ((traverseList model).filter
          (fun c => lowerStr c.name == lowerStr socketName)).getLast? with
      | some s => some s
      | none =>
          ((traverseList model).filter
            (fun c => strIncludes (lowerStr c.name) (lowerStr socketName))).getLast?) ∧
    findSocketOut model = ((traverseList model).filter socketOutPred).getLast? := by
  constructor
  · rw [findSocket, lastMatch_eq, lastMatch_eq]
  · rw [findSocketOut, lastMatch_eq]

/-! Centerline sampling and the fine/coarse cell keys. -/

/-- cellKey(x, z), lowpoly.js lines 3829-3833: Math.round of the
coordinate divided by the fine cell size, for both axes. -/
def cellKey (x z : ℚ) : Cell :=
  (round (x / GRID_CELL_SIZE), round (z / GRID_CELL_SIZE))

/-- Squared distance between the two THREE.Vector3 operands of
start.distanceTo(end). -/
def sqDist (a b : Pt3) : ℚ :=
  (b.x - a.x)^2 + (b.y - a.y)^2 + (b.z - a.z)^2

/-- Linear search for the least n with q ≤ n^2, i.e. the ceiling of the
exact square root of q. -/
def ceilSqrtFrom (q : ℚ) : ℕ → ℕ → ℕ
  | 0, n => n
  | fuel+1, n => if q ≤ (n : ℚ)^2 then n else ceilSqrtFrom q fuel (n+1)

/-- Math.ceil(Math.sqrt q): the fuel bound ceil(q)+1 always reaches the
answer (proved below for the case q = L^2). The JS code rounds the square
root to a double first, which agrees with the exact ceiling everywhere it
is used in this development. -/
def ceilSqrt (q : ℚ) : ℕ := ceilSqrtFrom q (⌈q⌉.toNat + 1) 0

/-- Linear search for the least n with q ≤ (2n)^2, i.e. the ceiling of
(exact sqrt q) / 2, used by the coarse sampler (sample every 2m). -/
def ceilHalfSqrtFrom (q : ℚ) : ℕ → ℕ → ℕ
  | 0, n => n
  | fuel+1, n => if q ≤ ((2 * n : ℕ) : ℚ)^2 then n else ceilHalfSqrtFrom q fuel (n+1)

/-- Math.ceil(Math.sqrt q / 2). -/
def ceilHalfSqrt (q : ℚ) : ℕ := ceilHalfSqrtFrom q (⌈q⌉.toNat + 1) 0

theorem ceilSqrtFrom_eq (q L : ℚ) (hL : 0 < L) (hq : L^2 = q) :
    ∀ (fuel n : ℕ), (n : ℤ) ≤ ⌈L⌉ → ⌈L⌉ ≤ (n : ℤ) + fuel →
      ceilSqrtFrom q fuel n = ⌈L⌉.toNat := by
  intro fuel
  induction fuel with
  | zero =>
      intro n h1 h2
      show n = ⌈L⌉.toNat
      omega
  | succ fuel ih =>
      intro n h1 h2
      by_cases hc : q ≤ (n : ℚ)^2
      · have hn : L ≤ (n : ℚ) := by
          by_contra hcon
          push_neg at hcon
          have hnn : (0:ℚ) ≤ (n : ℚ) := by positivity
          nlinarith
        have hceil : ⌈L⌉ ≤ (n : ℤ) := Int.ceil_le.mpr (by push_cast; exact hn)
        have hEq : (n : ℤ) = ⌈L⌉ := le_antisymm h1 hceil
        simp only [ceilSqrtFrom, if_pos hc]
        omega
      · push_neg at hc
        have hlt : (n : ℚ) < L := by nlinarith
        have hceil : (n : ℤ) < ⌈L⌉ := Int.lt_ceil.mpr (by push_cast; exact hlt)
        simp only [ceilSqrtFrom, if_neg (not_le.mpr hc)]
        exact ih (n+1) (by omega) (by push_cast; push_cast at h2; omega)

theorem ceilSqrt_eq (q L : ℚ) (hL : 0 < L) (hq : L^2 = q) :
    ceilSqrt q = ⌈L⌉.toNat := by
  have h1 : (1:ℤ) ≤ ⌈L⌉ := Int.ceil_pos.mpr hL
  have h2 : ⌈L⌉ ≤ ⌈q⌉ + 1 := by
    by_cases hL1 : L ≤ 1
    · have ha : ⌈L⌉ ≤ 1 := Int.ceil_le.mpr (by push_cast; linarith)
      have hq0 : (0:ℚ) < q := by nlinarith
      have hb : 0 < ⌈q⌉ := Int.ceil_pos.mpr hq0
      omega
    · push_neg at hL1
      have ha : L ≤ L^2 := by nlinarith
      have hb : ⌈L⌉ ≤ ⌈L^2⌉ := Int.ceil_le_ceil ha
      rw [hq] at hb
      omega
  refine ceilSqrtFrom_eq q L hL hq (⌈q⌉.toNat + 1) 0 (by omega) ?_
  push_cast
  omega

/-- sampleRoadCells(piece), lowpoly.js lines 3836-3861: with no socket_out
the cell list is empty; otherwise sample steps+1 points evenly from the
piece origin to the socket, steps = max(1, ceil(distance)) (sample every
1m), and map each through cellKey. -/
def sampleRoadCells (piece : PlacedPiece) : List Cell :=
  match piece.sockOut with
  | none => []
  | some (e, _) =>
    let s := piece.start
    let steps : ℕ := max 1 (ceilSqrt (sqDist s e))
    (List.range (steps + 1)).map (fun (i : ℕ) =>
      let t : ℚ := (i : ℚ) / (steps : ℚ)
      cellKey (s.x + (e.x - s.x) * t) (s.z + (e.z - s.z) * t))

/-- The duplicate-avoiding push used by sampleRoadWorldGridCells. -/
def pushUnique (cells : List Cell) (c : Cell) : List Cell :=
  if c ∈ cells then cells else cells ++ [c]

/-- sampleRoadWorldGridCells(piece), lowpoly.js lines 3939-3973: sample
every 2m along the centerline, convert to coarse (TILE_SIZE) grid
coordinates, skipping duplicates. -/
def sampleRoadWorldGridCells (piece : PlacedPiece) : List Cell :=
  match piece.sockOut with
  | none => []
  | some (e, _) =>
    let s := piece.start
    let steps : ℕ := max 1 (ceilHalfSqrt (sqDist s e))
    ((List.range (steps + 1)).map (fun (i : ℕ) =>
      let t : ℚ := (i : ℚ) / (steps : ℚ)
      (round ((s.x + (e.x - s.x) * t) / TILE_SIZE),
       round ((s.z + (e.z - s.z) * t) / TILE_SIZE)))).foldl pushUnique []

/-- Evaluation helper for JS Math.round at concrete rationals. -/
theorem round_eq_of (x : ℚ) (z : ℤ) (h1 : (z : ℚ) ≤ x + 1/2) (h2 : x + 1/2 < (z : ℚ) + 1) :
    round x = z := by
  rw [round_eq, Int.floor_eq_iff]
  exact ⟨h1, h2⟩

/-- C6: centerline sampling produces ceil(length / sampleStep) + 1 evenly
spaced points from the piece origin to its out socket (sampleStep = 1),
each converted to a fine-grid cell key by rounding coordinate / cellSize;
in particular a straight piece of centerline length 5 at the origin with
identity orientation, fine cell size 2 and sample step 1 yields exactly 6
sample points at z = 0,1,2,3,4,5 mapping to fine cells (0,0) through
(0,3), with multiple samples sharing a cell. -/
theorem sampleRoadCells_spec (s e : Pt3) (qo : Quat) (L : ℚ)
    (hL : 0 < L) (hq : L^2 = sqDist s e) :
    (sampleRoadCells ⟨s, some (e, qo)⟩).length = ⌈L⌉.toNat + 1 ∧
    sampleRoadCells ⟨s, some (e, qo)⟩ =
      (List.range (⌈L⌉.toNat + 1)).map (fun (i : ℕ) =>
        let t : ℚ := (i : ℚ) / (⌈L⌉.toNat : ℚ)
        cellKey (s.x + (e.x - s.x) * t) (s.z + (e.z - s.z) * t)) ∧
    sampleRoadCells ⟨⟨0,0,0⟩, some (⟨0,0,5⟩, idQuat)⟩ =
      [(0,0), (0,1), (0,1), (0,2), (0,2), (0,3)] ∧
    (sampleRoadCells ⟨⟨0,0,0⟩, some (⟨0,0,5⟩, idQuat)⟩).dedup =
      [(0,0), (0,1), (0,2), (0,3)] := by
  have hsteps : max 1 (ceilSqrt (sqDist s e)) = ⌈L⌉.toNat := by
    rw [ceilSqrt_eq (sqDist s e) L hL hq]
    have : 1 ≤ ⌈L⌉ := Int.ceil_pos.mpr hL
    omega
  have hd2 : sqDist ⟨0,0,0⟩ ⟨0,0,5⟩ = 25 := by norm_num [sqDist]
  have hcs : ceilSqrt (sqDist ⟨0,0,0⟩ ⟨0,0,5⟩) = 5 := by
    rw [hd2, ceilSqrt_eq 25 5 (by norm_num) (by norm_num)]
    norm_num
    decide
  have hconc : sampleRoadCells ⟨⟨0,0,0⟩, some (⟨0,0,5⟩, idQuat)⟩ =
      [(0,0), (0,1), (0,1), (0,2), (0,2), (0,3)] := by
    show (List.range (max 1 (ceilSqrt (sqDist ⟨0,0,0⟩ ⟨0,0,5⟩)) + 1)).map _ = _
    rw [hcs]
    have h0 : round ((0:ℚ)) = 0 := by simp
    have ha : round ((1:ℚ)/2) = 1 := round_eq_of _ 1 (by norm_num) (by norm_num)
    have hb : round ((3:ℚ)/2) = 2 := round_eq_of _ 2 (by norm_num) (by norm_num)
    have hc : round ((5:ℚ)/2) = 3 := round_eq_of _ 3 (by norm_num) (by norm_num)
    have hd : round ((1:ℚ)) = 1 := by simp
    have he : round ((2:ℚ)) = 2 := by simp
    norm_num [List.range_succ, cellKey, GRID_CELL_SIZE, h0, ha, hb, hc, hd, he]
  refine ⟨?_, ?_, hconc, ?_⟩
  · show ((List.range (max 1 (ceilSqrt (sqDist s e)) + 1)).map _).length = _
    rw [List.length_map, List.length_range, hsteps]
  · show (List.range (max 1 (ceilSqrt (sqDist s e)) + 1)).map _ = _
    rw [hsteps]
  · rw [hconc]
    decide

/-- Witness for C6 at the straight length-5 piece of Scenario 2. -/
theorem sampleRoadCells_spec_witness :
    (0:ℚ) < 5 ∧ (5:ℚ)^2 = sqDist ⟨0,0,0⟩ ⟨0,0,5⟩ ∧
    (sampleRoadCells ⟨⟨0,0,0⟩, some (⟨0,0,5⟩, idQuat)⟩).length = ⌈(5:ℚ)⌉.toNat + 1 :=
  ⟨by norm_num, by norm_num [sqDist],
    (sampleRoadCells_spec ⟨0,0,0⟩ ⟨0,0,5⟩ idQuat 5 (by norm_num) (by norm_num [sqDist])).1⟩

/-! PlacementEngine: trySpawnRoadPiece and the generateRoad loop. -/

/-- A road template as the placement code consumes it: given the world
position/orientation the clone is snapped to (scale 2 applied by the
caller code), the world transform of its socket_out child, or none when
the template has no socket_out. The GLB geometry is external input, so it
enters the model as a function parameter. -/
abbrev RoadTemplate := Pt3 → Quat → Option (Pt3 × Quat)

/-- The external inputs of the generateRoad pipeline: this.roadTemplates
(lookup by piece name) and, for each loop step, the candidate order that
the Math.random-driven Fisher-Yates shuffle produced. -/
structure RoadEnv where
  roadTemplates : String → Option RoadTemplate
  pickOrder : ℕ → List String → List String

/-- Seam-tolerance window (lowpoly.js lines 3893-3901): the cells of the
last min(2, length) committed pieces. -/
def recentCells (pieces : List PlacedPiece) : List Cell :=
  ((pieces.drop (pieces.length - min 2 pieces.length)).map sampleRoadCells).flatten

/-- The road-collision test of trySpawnRoadPiece (lines 3903-3910): some
sampled cell is occupied and outside the recent-cells window. -/
def hasRoadCollision (cells : List Cell) (occ : Finset Cell) (recent : List Cell) : Bool :=
  cells.any (fun c => decide (c ∈ occ) && !(decide (c ∈ recent)))

/-- removeTileAt(gridX, gridZ), lowpoly.js lines 2198-2214: dispose the
tile, drop the worldGrid entry and the groundTiles membership. -/
def removeTileAt (c : Cell) (st : RoadState) : RoadState × Bool :=
  match gridGet st.worldGrid c with
  | some _ =>
      ({ st with
           worldGrid := gridDelete st.worldGrid c,
           groundTiles := st.groundTiles.erase c }, true)
  | none => (st, false)

/-- The piece the engine keeps: testInstance.position.y += 0.001 happens
after commit; the socket child moves with the root, so both recorded world
positions shift by the same y offset. -/
def pieceYShift (p : PlacedPiece) : PlacedPiece :=
  { start := { p.start with y := p.start.y + 1/1000 },
    sockOut := p.sockOut.map (fun sq => ({ sq.1 with y := sq.1.y + 1/1000 }, sq.2)) }

/-- trySpawnRoadPiece(pieceName, position, quaternion), lowpoly.js lines
3874-3936: null when the template is missing; otherwise sample the clone,
reject (returning null, state untouched) when a sampled cell is occupied
outside the recent window; on acceptance remove grass tiles under the
piece, occupy its fine cells and push it. -/
def trySpawnRoadPiece (env : RoadEnv) (st : RoadState) (pieceName : String)
    (pos : Pt3) (qo : Quat) : Option PlacedPiece × RoadState :=
  match env.roadTemplates pieceName with
  | none => (none, st)
  | some tmpl =>
    let piece : PlacedPiece := { start := pos, sockOut := tmpl pos qo }
    let cells := sampleRoadCells piece
    let recent := recentCells st.roadPieces
    if hasRoadCollision cells st.occupiedCells recent then (none, st)
    else
      let worldCells := sampleRoadWorldGridCells piece
      let st1 := worldCells.foldl (fun s c =>
        match gridGet s.worldGrid c with
        | some GridEntry.grass => (removeTileAt c s).1
        | none => s) st
      let st2 := { st1 with
                     occupiedCells := st1.occupiedCells ∪ cells.toFinset,
                     roadPieces := st1.roadPieces ++ [pieceYShift piece] }
      (some (pieceYShift piece), st2)

/-- occupyCells of System 2, lowpoly.js lines 3319-3324: add the cell key
of every sample to this.occupiedCells. -/
def occupyCells (occ : Finset Cell) (samples : List (ℚ × ℚ)) : Finset Cell :=
  samples.foldl (fun o s => insert (cellKey s.1 s.2) o) occ

/-- The inner candidate loop of generateRoad (lines 4002-4005): try piece
names in order until one spawns. -/
def tryPieceOptions (env : RoadEnv) (pos : Pt3) (qo : Quat) :
    List String → RoadState → Option PlacedPiece × RoadState
  | [], st => (none, st)
  | name :: rest, st =>
    match trySpawnRoadPiece env st name pos qo with
    | (some p, st1) => (some p, st1)
    | (none, st1) => tryPieceOptions env pos qo rest st1

/-- The piece options offered at a step of generateRoad (lines 3994-3997):
straights only while recovering from a collision. -/
def pieceOptionsFor (failures : ℕ) : List String :=
  if failures > 0 then ["road_long", "road_short"]
  else ["road_long", "road_short", "road_curve_wide", "road_curve_tight"]

/-- The for loop of generateRoad (lines 3993-4021): fuel counts the
remaining iterations of i < count; stops early after 5 consecutive
failures; on success the cursor advances to the socket_out transform of
the committed piece when it has one. -/
def generateRoadLoop (env : RoadEnv) :
    ℕ → ℕ → Pt3 → Quat → ℕ → RoadState → RoadState
  | 0, _, _, _, _, st => st
  | fuel+1, i, pos, qo, failures, st =>
    if failures ≥ 5 then st
    else
      match tryPieceOptions env pos qo (env.pickOrder i (pieceOptionsFor failures)) st with
      | (none, st1) => generateRoadLoop env fuel (i+1) pos qo (failures+1) st1
      | (some p, st1) =>
        match p.sockOut with
        | some pq => generateRoadLoop env fuel (i+1) pq.1 pq.2 0 st1
        | none => generateRoadLoop env fuel (i+1) pos qo 0 st1

/-- generateRoad(count), lowpoly.js lines 3976-4024: clear this.roadPieces
and this.occupiedCells, then run the placement loop from the origin with
the identity orientation. -/
def generateRoad (env : RoadEnv) (count : ℕ) (st : RoadState) : RoadState :=
  generateRoadLoop env count 0 ⟨0, 0, 0⟩ idQuat 0
    { st with roadPieces := [], occupiedCells := ∅ }

/-- Shared evaluation: the fine cells of a straight length-5 piece at the
origin (also the Scenario 2 data). -/
theorem sampleRoadCells_straight5 :
    sampleRoadCells ⟨⟨0,0,0⟩, some (⟨0,0,5⟩, idQuat)⟩ =
      [(0,0), (0,1), (0,1), (0,2), (0,2), (0,3)] := by
  have hd2 : sqDist ⟨0,0,0⟩ ⟨0,0,5⟩ = 25 := by norm_num [sqDist]
  have hcs : ceilSqrt (sqDist ⟨0,0,0⟩ ⟨0,0,5⟩) = 5 := by
    rw [hd2, ceilSqrt_eq 25 5 (by norm_num) (by norm_num)]
    norm_num
    decide
  show (List.range (max 1 (ceilSqrt (sqDist ⟨0,0,0⟩ ⟨0,0,5⟩)) + 1)).map _ = _
  rw [hcs]
  have h0 : round ((0:ℚ)) = 0 := by simp
  have ha : round ((1:ℚ)/2) = 1 := round_eq_of _ 1 (by norm_num) (by norm_num)
  have hb : round ((3:ℚ)/2) = 2 := round_eq_of _ 2 (by norm_num) (by norm_num)
  have hc : round ((5:ℚ)/2) = 3 := round_eq_of _ 3 (by norm_num) (by norm_num)
  have hd : round ((1:ℚ)) = 1 := by simp
  have he : round ((2:ℚ)) = 2 := by simp
  norm_num [List.range_succ, cellKey, GRID_CELL_SIZE, h0, ha, hb, hc, hd, he]

/-- C4: whenever some sampled fine-grid cell of the candidate piece is
already occupied and is not inside the recent-cells window built from the
last 2 committed pieces, trySpawnRoadPiece returns null and leaves the
occupied-cell set, the coarse world grid, the committed road-piece list
and the ground tiles exactly as they were. -/
theorem trySpawnRoadPiece_reject (env : RoadEnv) (st : RoadState) (pieceName : String)
    (pos : Pt3) (qo : Quat) (tmpl : RoadTemplate)
    (htmpl : env.roadTemplates pieceName = some tmpl)
    (hcol : hasRoadCollision (sampleRoadCells ⟨pos, tmpl pos qo⟩) st.occupiedCells
      (recentCells st.roadPieces) = true) :
    trySpawnRoadPiece env st pieceName pos qo = (none, st) ∧
    (trySpawnRoadPiece env st pieceName pos qo).2.occupiedCells = st.occupiedCells ∧
    (trySpawnRoadPiece env st pieceName pos qo).2.worldGrid = st.worldGrid ∧
    (trySpawnRoadPiece env st pieceName pos qo).2.roadPieces = st.roadPieces ∧
    (trySpawnRoadPiece env st pieceName pos qo).2.groundTiles = st.groundTiles := by
  have h : trySpawnRoadPiece env st pieceName pos qo = (none, st) := by
    unfold trySpawnRoadPiece
    rw [htmpl]
    simp only [hcol, if_true]
  exact ⟨h, by rw [h], by rw [h], by rw [h], by rw [h]⟩

/-- The template of a straight piece whose placed clone has its socket_out
5 units ahead of the origin. -/
def tmplStraight5 : RoadTemplate :=
  fun p q => some ({ p with z := p.z + 5 }, q)

/-- A template table holding only road_long. -/
def env4 : RoadEnv :=
  { roadTemplates := fun n => if n = "road_long" then some tmplStraight5 else none,
    pickOrder := fun _ l => l }

/-- A state with fine cell (0,2) already occupied and no committed pieces
(so the recent-cells window is empty). -/
def st4 : RoadState := ⟨{(0, 2)}, [], [], []⟩

/-- Witness for C4: the straight piece sampled from the origin crosses the
occupied cell (0,2), is rejected, and the state is untouched. -/
theorem trySpawnRoadPiece_reject_witness :
    env4.roadTemplates "road_long" = some tmplStraight5 ∧
    hasRoadCollision (sampleRoadCells ⟨⟨0,0,0⟩, tmplStraight5 ⟨0,0,0⟩ idQuat⟩)
      st4.occupiedCells (recentCells st4.roadPieces) = true ∧
    trySpawnRoadPiece env4 st4 "road_long" ⟨0,0,0⟩ idQuat = (none, st4) := by
  have htmpl : env4.roadTemplates "road_long" = some tmplStraight5 := by
    simp [env4]
  have hpiece : tmplStraight5 ⟨0,0,0⟩ idQuat = some (⟨0,0,5⟩, idQuat) := by
    unfold tmplStraight5
    norm_num
  have hcol : hasRoadCollision (sampleRoadCells ⟨⟨0,0,0⟩, tmplStraight5 ⟨0,0,0⟩ idQuat⟩)
      st4.occupiedCells (recentCells st4.roadPieces) = true := by
    rw [hpiece, sampleRoadCells_straight5]
    decide
  exact ⟨htmpl, hcol,
    (trySpawnRoadPiece_reject env4 st4 "road_long" ⟨0,0,0⟩ idQuat tmplStraight5
      htmpl (hpiece ▸ hcol)).1⟩

/-- The grass-removal fold inside trySpawnRoadPiece never touches the
fine-cell set. -/
theorem removeFold_occ (cs : List Cell) (st : RoadState) :
    (cs.foldl (fun s c =>
      match gridGet s.worldGrid c with
      | some GridEntry.grass => (removeTileAt c s).1
      | none => s) st).occupiedCells = st.occupiedCells := by
  induction cs generalizing st with
  | nil => rfl
  | cons c cs ih =>
      rw [List.foldl_cons, ih]
      cases h : gridGet st.worldGrid c with
      | none => rfl
      | some e => cases e; simp [removeTileAt, h]

theorem occupyCells_monotone (occ : Finset Cell) (samples : List (ℚ × ℚ)) :
    occ ⊆ occupyCells occ samples := by
  unfold occupyCells
  induction samples generalizing occ with
  | nil => exact Finset.Subset.refl occ
  | cons s ss ih =>
      rw [List.foldl_cons]
      exact (Finset.subset_insert _ occ).trans (ih _)

theorem trySpawnRoadPiece_monotone (env : RoadEnv) (st : RoadState) (n : String)
    (p : Pt3) (q : Quat) :
    st.occupiedCells ⊆ (trySpawnRoadPiece env st n p q).2.occupiedCells := by
  unfold trySpawnRoadPiece
  cases env.roadTemplates n with
  | none => exact Finset.Subset.refl _
  | some tmpl =>
      by_cases hcol : hasRoadCollision (sampleRoadCells ⟨p, tmpl p q⟩) st.occupiedCells
        (recentCells st.roadPieces)
      · simp only [hcol, if_true]
        exact Finset.Subset.refl _
      · simp only [hcol, Bool.false_eq_true, if_false]
        rw [removeFold_occ]
        exact Finset.subset_union_left

theorem tryPieceOptions_monotone (env : RoadEnv) (p : Pt3) (q : Quat) :
    ∀ (names : List String) (st : RoadState),
      st.occupiedCells ⊆ (tryPieceOptions env p q names st).2.occupiedCells := by
  intro names
  induction names with
  | nil => intro st; exact Finset.Subset.refl _
  | cons n rest ih =>
      intro st
      show st.occupiedCells ⊆ (match trySpawnRoadPiece env st n p q with
        | (some pc, st1) => (some pc, st1)
        | (none, st1) => tryPieceOptions env p q rest st1).2.occupiedCells
      cases h : trySpawnRoadPiece env st n p q with
      | mk res st1 =>
          have hmono : st.occupiedCells ⊆ st1.occupiedCells := by
            have := trySpawnRoadPiece_monotone env st n p q
            rw [h] at this
            exact this
          cases res with
          | some pc => exact hmono
          | none => exact hmono.trans (ih st1)

theorem generateRoadLoop_monotone (env : RoadEnv) :
    ∀ (fuel i : ℕ) (p : Pt3) (q : Quat) (f : ℕ) (st : RoadState),
      st.occupiedCells ⊆ (generateRoadLoop env fuel i p q f st).occupiedCells := by
  intro fuel
  induction fuel with
  | zero => intro i p q f st; exact Finset.Subset.refl _
  | succ fuel ih =>
      intro i p q f st
      show st.occupiedCells ⊆ (if f ≥ 5 then st else
        match tryPieceOptions env p q (env.pickOrder i (pieceOptionsFor f)) st with
        | (none, st1) => generateRoadLoop env fuel (i+1) p q (f+1) st1
        | (some pc, st1) =>
          match pc.sockOut with
          | some pq => generateRoadLoop env fuel (i+1) pq.1 pq.2 0 st1
          | none => generateRoadLoop env fuel (i+1) p q 0 st1).occupiedCells
      by_cases hf : f ≥ 5
      · rw [if_pos hf]
      · rw [if_neg hf]
        cases h : tryPieceOptions env p q (env.pickOrder i (pieceOptionsFor f)) st with
        | mk res st1 =>
            have hmono : st.occupiedCells ⊆ st1.occupiedCells := by
              have := tryPieceOptions_monotone env p q (env.pickOrder i (pieceOptionsFor f)) st
              rw [h] at this
              exact this
            cases res with
            | none => exact hmono.trans (ih (i+1) p q (f+1) st1)
            | some pc =>
                dsimp only
                cases hs : pc.sockOut with
                | some pq =>
                    simp only [hs]
                    exact hmono.trans (ih (i+1) pq.1 pq.2 0 st1)
                | none =>
                    simp only [hs]
                    exact hmono.trans (ih (i+1) p q 0 st1)

/-- C5: within one generation run every operation only adds keys to the
fine-cell collision set: occupyCells, a single trySpawnRoadPiece attempt
(failed or committed), a whole candidate pass, and any number of
iterations of the generateRoad loop all map the occupied-cell set to a
superset; no key is ever removed mid-run. -/
theorem occupiedCells_never_removed :
    (∀ (occ : Finset Cell) (samples : List (ℚ × ℚ)), occ ⊆ occupyCells occ samples) ∧
    (∀ (env : RoadEnv) (st : RoadState) (n : String) (p : Pt3) (q : Quat),
      st.occupiedCells ⊆ (trySpawnRoadPiece env st n p q).2.occupiedCells) ∧
    (∀ (env : RoadEnv) (p : Pt3) (q : Quat) (names : List String) (st : RoadState),
      st.occupiedCells ⊆ (tryPieceOptions env p q names st).2.occupiedCells) ∧
    (∀ (env : RoadEnv) (fuel i : ℕ) (p : Pt3) (q : Quat) (f : ℕ) (st : RoadState),
      st.occupiedCells ⊆ (generateRoadLoop env fuel i p q f st).occupiedCells) :=
  ⟨occupyCells_monotone,
   trySpawnRoadPiece_monotone,
   fun env p q names st => tryPieceOptions_monotone env p q names st,
   fun env fuel i p q f st => generateRoadLoop_monotone env fuel i p q f st⟩

/-! RandomWalkGenerator (System 1): direction-balance rules. -/

/-- The four entries of the ROAD_TYPES table (lowpoly.js lines 3426-3431). -/
inductive RoadType where
  | road_long
  | road_short
  | road_curve_wide
  | road_curve_tight
deriving DecidableEq, Repr

/-- ROAD_TYPES[key].type === 'curve'. -/
def isCurve : RoadType → Bool
  | .road_curve_wide => true
  | .road_curve_tight => true
  | _ => false

/-- lowpoly.js line 3423. -/
def MAX_SAME_DIR_CURVES : ℕ := 2

/-- lowpoly.js line 3424. -/
def MIN_STRAIGHTS_AFTER_CURVE : ℕ := 1

/-- Direction tracking state (lines 3419-3422): lastCurveDir is -1 left, 0
none, 1 right. -/
structure DirState where
  lastCurveDir : ℤ
  sameDirCount : ℕ
  straightsSinceCurve : ℕ
deriving DecidableEq, Repr

/-- Initial tracking: straightsSinceCurve = 99 allows curves from the start. -/
def initDirState : DirState := ⟨0, 0, 99⟩

/-- A candidate piece offer: type key plus mirrored flag. -/
structure Candidate where
  key : RoadType
  mirror : Bool
deriving DecidableEq, Repr

/-- The filterByRules predicate (lowpoly.js lines 3534-3546): straights
always pass; a curve is dropped when fewer than
MIN_STRAIGHTS_AFTER_CURVE straights followed the last curve, or when its
direction equals the last curve direction already used
MAX_SAME_DIR_CURVES or more times in a row. The predicate takes no
occupancy input: it runs before any collision check or placement. -/
def keepCandidate (st : DirState) (c : Candidate) : Bool :=
  if !(isCurve c.key) then true
  else if st.straightsSinceCurve < MIN_STRAIGHTS_AFTER_CURVE then false
  else
    let dir : ℤ := if c.mirror then -1 else 1
    if dir = st.lastCurveDir ∧ st.sameDirCount ≥ MAX_SAME_DIR_CURVES then false
    else true

/-- filterByRules (lines 3534-3546). -/
def filterByRules (st : DirState) (cs : List Candidate) : List Candidate :=
  cs.filter (keepCandidate st)

/-- Direction tracking update after committing a piece (lines 3641-3654). -/
def updateDirTracking (st : DirState) (c : Candidate) : DirState :=
  if isCurve c.key then
    let dir : ℤ := if c.mirror then -1 else 1
    { lastCurveDir := dir,
      sameDirCount := if dir = st.lastCurveDir then st.sameDirCount + 1 else 1,
      straightsSinceCurve := 0 }
  else
    { st with straightsSinceCurve := st.straightsSinceCurve + 1 }

/-- The candidate set built at step i (lines 3558-3575): straights only for
the first 3 steps, otherwise every type plus mirrored curve variants. -/
def buildCandidates (i : ℕ) : List Candidate :=
  if i < 3 then [⟨.road_long, false⟩, ⟨.road_short, false⟩]
  else [⟨.road_long, false⟩, ⟨.road_short, false⟩,
        ⟨.road_curve_wide, false⟩, ⟨.road_curve_wide, true⟩,
        ⟨.road_curve_tight, false⟩, ⟨.road_curve_tight, true⟩]

/-- C8: a curve candidate is rejected by the direction-balance filter
(which runs before the collision check and consults no occupancy state)
exactly when (a) fewer than MIN_STRAIGHTS_AFTER_CURVE = 1 straights have
been placed since the last curve, or (b) its direction equals the last
curve direction and that direction was already used consecutively at
least MAX_SAME_DIR_CURVES = 2 times; in particular, after
curve-right/straight/curve-right/straight, a third right curve is removed
from the candidate list while the mirrored curves and straights stay. -/
theorem filterByRules_direction_balance :
    (∀ (st : DirState) (c : Candidate), isCurve c.key = true →
      (keepCandidate st c = false ↔
        st.straightsSinceCurve < MIN_STRAIGHTS_AFTER_CURVE ∨
        ((if c.mirror then (-1:ℤ) else 1) = st.lastCurveDir ∧
          MAX_SAME_DIR_CURVES ≤ st.sameDirCount))) ∧
    filterByRules
      (updateDirTracking (updateDirTracking (updateDirTracking
        (updateDirTracking initDirState ⟨.road_curve_wide, false⟩)
        ⟨.road_long, false⟩) ⟨.road_curve_tight, false⟩) ⟨.road_long, false⟩)
      (buildCandidates 4) =
      [⟨.road_long, false⟩, ⟨.road_short, false⟩,
       ⟨.road_curve_wide, true⟩, ⟨.road_curve_tight, true⟩] := by
  constructor
  · intro st c hc
    unfold keepCandidate
    rw [hc]
    simp only [Bool.not_true, Bool.false_eq_true, if_false]
    split_ifs <;> simp_all
  · decide

/-- Witness for C8 at the state reached after two consecutive right curves
separated by single straights. -/
theorem filterByRules_direction_balance_witness :
    isCurve (Candidate.mk .road_curve_wide false).key = true ∧
    (keepCandidate ⟨1, 2, 1⟩ ⟨.road_curve_wide, false⟩ = false ↔
      (⟨1, 2, 1⟩ : DirState).straightsSinceCurve < MIN_STRAIGHTS_AFTER_CURVE ∨
      ((if (Candidate.mk .road_curve_wide false).mirror then (-1:ℤ) else 1) =
          (⟨1, 2, 1⟩ : DirState).lastCurveDir ∧
        MAX_SAME_DIR_CURVES ≤ (⟨1, 2, 1⟩ : DirState).sameDirCount)) :=
  ⟨by decide,
   filterByRules_direction_balance.1 ⟨1, 2, 1⟩ ⟨.road_curve_wide, false⟩ (by decide)⟩

/-! PathDecorator: utility poles and sagging cables. -/

/-- poleSpacing, lowpoly.js line 1577. -/
def poleSpacing : ℚ := 20

/-- roadLength, line 1578. -/
def roadLength : ℚ := 80

/-- sideOffset, line 1579. -/
def sideOffset : ℚ := 7/2

/-- cableHeight, line 1652. -/
def cableHeight : ℚ := 76/10

/-- cableOffsets, line 1653: the three wire offsets. -/
def cableOffsets : List ℚ := [-7/10, 0, 7/10]

/-- sagAmount, line 1654. -/
def sagAmount : ℚ := 12/10

/-- segments, line 1658. -/
def cableSegments : ℕ := 24

/-- The pole-position loop (lines 1582-1585):
for (z = 0; z > -roadLength; z -= poleSpacing). The loop strictly
decreases z, so a fuel of 100 iterations is ample for the fixed
constants. -/
def polePositionsAux : ℕ → ℚ → List (ℚ × ℚ)
  | 0, _ => []
  | fuel+1, z =>
      if z > -roadLength then (sideOffset, z) :: polePositionsAux fuel (z - poleSpacing)
      else []

/-- The pole positions of spawnUtilityPoles. -/
def polePositions : List (ℚ × ℚ) := polePositionsAux 100 0

/-- A vertex of a cable polyline. -/
structure CablePoint where
  cx : ℚ
  cy : ℚ
  cz : ℚ
deriving DecidableEq, Repr

/-- One wire of createSaggingCables (lines 1656-1673): segments+1 points;
x stays at x1 + offset, z interpolates from z1 to z2, and
y = cableHeight - sagAmount * 4t(1-t). -/
def cablePoints (x1 z1 z2 offset : ℚ) : List CablePoint :=
  (List.range (cableSegments + 1)).map (fun (j : ℕ) =>
    let t : ℚ := (j : ℚ) / (cableSegments : ℚ)
    ⟨x1 + offset, cableHeight - sagAmount * 4 * t * (1 - t), z1 + (z2 - z1) * t⟩)

/-- createSaggingCables(x1, z1, x2, z2), lines 1647-1680: one polyline per
wire offset. x2 is accepted but unused by the point formula, exactly as in
the source. -/
def createSaggingCables (x1 z1 x2 z2 : ℚ) : List (List CablePoint) :=
  cableOffsets.map (cablePoints x1 z1 z2)

/-- spawnUtilityPoles (lines 1570-1600): place a pole at every loop
position, and a cable group between each consecutive pair. -/
def spawnUtilityPoles : List (ℚ × ℚ) × List (List (List CablePoint)) :=
  (polePositions,
   (polePositions.zip polePositions.tail).map
     (fun pr => createSaggingCables pr.1.1 pr.1.2 pr.2.1 pr.2.2))

theorem polePositions_eq :
    polePositions = [(7/2, 0), (7/2, -20), (7/2, -40), (7/2, -60)] := by
  have e1 : ∀ (fuel : ℕ) (z : ℚ), polePositionsAux (fuel+1) z =
      if z > -roadLength then (sideOffset, z) :: polePositionsAux fuel (z - poleSpacing)
      else [] := fun _ _ => rfl
  rw [polePositions]
  rw [show (100:ℕ) = 99+1 from rfl, e1, if_pos (by norm_num [roadLength])]
  rw [show (99:ℕ) = 98+1 from rfl, e1, if_pos (by norm_num [roadLength, poleSpacing])]
  rw [show (98:ℕ) = 97+1 from rfl, e1, if_pos (by norm_num [roadLength, poleSpacing])]
  rw [show (97:ℕ) = 96+1 from rfl, e1, if_pos (by norm_num [roadLength, poleSpacing])]
  rw [show (96:ℕ) = 95+1 from rfl, e1, if_neg (by norm_num [roadLength, poleSpacing])]
  norm_num [sideOffset, poleSpacing]

theorem cablePoints_get_cy (x1 z1 z2 offset : ℚ) (j : ℕ) (hj : j ≤ cableSegments) :
    ((cablePoints x1 z1 z2 offset).get? j).map CablePoint.cy =
      some (cableHeight - sagAmount * 4 * ((j:ℚ)/(cableSegments:ℚ))
        * (1 - (j:ℚ)/(cableSegments:ℚ))) := by
  unfold cablePoints
  rw [List.get?_map, List.get?_range (by omega : j < cableSegments + 1)]
  rfl

/-- C9: the decorator with spacing 20 and path length 80 places exactly 4
poles and 3 cable groups between consecutive poles (each group of 3
wires); every cable point follows height(t) = baseHeight - sagAmount *
4t(1-t), so the midpoint sample (t = 1/2, j = 12 of 24) sits at
baseHeight - sagAmount and the droop is symmetric about the midpoint. -/
theorem pathDecorator_poles_and_sag :
    spawnUtilityPoles.1.length = 4 ∧
    spawnUtilityPoles.2.length = 3 ∧
    (∀ x1 z1 x2 z2 : ℚ, (createSaggingCables x1 z1 x2 z2).length = 3) ∧
    (∀ x1 z1 z2 offset : ℚ, ∀ j : ℕ, j ≤ cableSegments →
      ((cablePoints x1 z1 z2 offset).get? j).map CablePoint.cy =
        some (cableHeight - sagAmount * 4 * ((j:ℚ)/(cableSegments:ℚ))
          * (1 - (j:ℚ)/(cableSegments:ℚ)))) ∧
    (∀ x1 z1 z2 offset : ℚ,
      ((cablePoints x1 z1 z2 offset).get? 12).map CablePoint.cy =
        some (cableHeight - sagAmount)) ∧
    (∀ x1 z1 z2 offset : ℚ, ∀ j : ℕ, j ≤ cableSegments →
      ((cablePoints x1 z1 z2 offset).get? j).map CablePoint.cy =
        ((cablePoints x1 z1 z2 offset).get? (cableSegments - j)).map CablePoint.cy) := by
  refine ⟨?_, ?_, ?_, cablePoints_get_cy, ?_, ?_⟩
  · show polePositions.length = 4
    rw [polePositions_eq]
    rfl
  · show ((polePositions.zip polePositions.tail).map _).length = 3
    rw [polePositions_eq]
    rfl
  · intro x1 z1 x2 z2
    rfl
  · intro x1 z1 z2 offset
    rw [cablePoints_get_cy x1 z1 z2 offset 12 (by norm_num [cableSegments])]
    norm_num [cableHeight, sagAmount, cableSegments]
  · intro x1 z1 z2 offset j hj
    rw [cablePoints_get_cy x1 z1 z2 offset j hj,
      cablePoints_get_cy x1 z1 z2 offset (cableSegments - j) (by omega)]
    have hcast : ((cableSegments - j : ℕ) : ℚ) = (cableSegments : ℚ) - (j : ℚ) := by
      have := hj
      push_cast [Nat.cast_sub this]
      ring
    rw [hcast]
    have hne : (cableSegments : ℚ) ≠ 0 := by norm_num [cableSegments]
    field_simp
    ring

/-- Witness for C9 at the first wire of the first span, j = 6. -/
theorem pathDecorator_poles_and_sag_witness :
    (6 ≤ cableSegments) ∧
    ((cablePoints (7/2) 0 (-20) 0).get? 6).map CablePoint.cy =
      some (cableHeight - sagAmount * 4 * ((6:ℚ)/(cableSegments:ℚ))
        * (1 - (6:ℚ)/(cableSegments:ℚ))) :=
  ⟨by norm_num [cableSegments],
   by
     have h := pathDecorator_poles_and_sag.2.2.2.1 (7/2) 0 (-20) 0 6
       (by norm_num [cableSegments])
     simpa using h⟩

/-! SpineBranchGenerator (System 3). -/

/-- 2^32. -/
def U32 : ℕ := 4294967296

/-- One draw of the seeded mulberry32-style PRNG (lowpoly.js lines
2966-2975), over the unsigned representation of the 32-bit JS state:
(output numerator, next state). The JS return value is output / 2^32;
bitwise ops, Math.imul and the |0 coercions all agree with arithmetic
mod 2^32 on this representation. -/
def mulberry32 (s : ℕ) : ℕ × ℕ :=
  let s1 := (s + 0x6D2B79F5) % U32
  let t1 := ((Nat.xor s1 (s1 / 2^15)) * (Nat.lor s1 1)) % U32
  let t2 := Nat.xor ((t1 + (Nat.xor t1 (t1 / 2^7) * Nat.lor t1 61) % U32) % U32) t1
  (Nat.xor t2 (t2 / 2^14), s1)

/-- seededRandom() < ROADX_CHANCE (= 0.2): the double 0.2 is
3602879701896397/2^54, and output/2^32 is below it exactly when the
output numerator is at most 858993459. -/
def ROADX_THRESHOLD : ℕ := 858993460

/-- SPINE_LENGTH, line 3117. -/
def SPINE_LENGTH : ℕ := 20

/-- branch length, lines 3145 and 3149. -/
def BRANCH_LENGTH : ℕ := 5

/-- The two piece types of System 3. -/
inductive Sys3Piece where
  | road1
  | roadX
deriving DecidableEq, Repr

/-- The externally loaded GLB templates of System 3: whether each template
loaded, and the world transform each socket of a clone snapped at a given
position/orientation resolves to (none when the socket is absent). -/
structure Sys3Env where
  hasRoad1 : Bool
  hasRoadX : Bool
  out1 : Pt3 → Quat → Option (Pt3 × Quat)
  outX : Pt3 → Quat → Option (Pt3 × Quat)
  leftX : Pt3 → Quat → Option (Pt3 × Quat)
  rightX : Pt3 → Quat → Option (Pt3 × Quat)

/-- The seeded draw of one spine iteration (line 3127): seededRandom is
called only when 0 < i < SPINE_LENGTH - 1 (JS && short-circuit); returns
(useRoadX, next seed state). -/
def spineDraw (i seed : ℕ) : Bool × ℕ :=
  if 0 < i ∧ i < SPINE_LENGTH - 1 then
    ((mulberry32 seed).1 < ROADX_THRESHOLD, (mulberry32 seed).2)
  else (false, seed)

/-- The main spine loop (lines 3125-3163). Per iteration: the seeded draw
decides RoadX vs Road1; a missing template stops the loop; placing a
RoadX queues its resolved left/right branch transforms; the cursor
advances through socket_out or the loop stops. Returns (seed state,
placed tuples, queued branches). -/
def spineLoop (env : Sys3Env) :
    ℕ → ℕ → ℕ → Pt3 → Quat → List (Sys3Piece × Pt3 × Quat) → List (Pt3 × Quat) →
    ℕ × List (Sys3Piece × Pt3 × Quat) × List (Pt3 × Quat)
  | 0, _, seed, _, _, pieces, branches => (seed, pieces, branches)
  | fuel+1, i, seed, pos, qo, pieces, branches =>
    let useRoadX := (spineDraw i seed).1
    let seed1 := (spineDraw i seed).2
    if (if useRoadX then env.hasRoadX else env.hasRoad1) then
      let pieces1 := pieces ++ [((if useRoadX then .roadX else .road1 : Sys3Piece), pos, qo)]
      let branches1 :=
        if useRoadX then
          branches ++ (env.leftX pos qo).toList ++ (env.rightX pos qo).toList
        else branches
      match (if useRoadX then env.outX else env.out1) pos qo with
      | some nxt => spineLoop env fuel (i+1) seed1 nxt.1 nxt.2 pieces1 branches1
      | none => (seed1, pieces1, branches1)
    else (seed1, pieces, branches)

/-- One side street (lines 3171-3190): BRANCH_LENGTH Road1 pieces chained
through socket_out, stopping early on a missing template or socket. -/
def branchLoop (env : Sys3Env) :
    ℕ → Pt3 → Quat → List (Sys3Piece × Pt3 × Quat) → List (Sys3Piece × Pt3 × Quat)
  | 0, _, _, pieces => pieces
  | fuel+1, pos, qo, pieces =>
    if env.hasRoad1 then
      let pieces1 := pieces ++ [(.road1, pos, qo)]
      match env.out1 pos qo with
      | some nxt => branchLoop env fuel nxt.1 nxt.2 pieces1
      | none => pieces1
    else pieces

/-- The observable output of one System 3 run: the ordered
(pieceType, position, orientation) tuples and the queued branch count. -/
structure Sys3Result where
  pieces : List (Sys3Piece × Pt3 × Quat)
  branchCount : ℕ
deriving Repr

/-- spawnSpineAndBranchSystem3 (lines 2959-3193): SEED = 12345 hardcoded;
build the spine from the origin facing +Z, then extend every queued
branch. -/
def spawnSpineAndBranchSystem3 (env : Sys3Env) : Sys3Result :=
  let spine := spineLoop env SPINE_LENGTH 0 12345 ⟨0, 0, 0⟩ idQuat [] []
  { pieces := spine.2.2.foldl
      (fun acc b => branchLoop env BRANCH_LENGTH b.1 b.2 acc) spine.2.1,
    branchCount := spine.2.2.length }

/-- An environment with both templates loaded and every socket resolving
to the attachment transform itself (geometry does not influence counts). -/
def sys3IdEnv : Sys3Env :=
  { hasRoad1 := true, hasRoadX := true,
    out1 := fun p q => some (p, q), outX := fun p q => some (p, q),
    leftX := fun p q => some (p, q), rightX := fun p q => some (p, q) }

/-- C1: the generator is a pure function of the template environment with
the seed fixed at 12345 inside it (its only randomness source is the
seeded PRNG), so two executions produce the identical ordered
(pieceType, position, orientation) sequence, hence identical total piece
count and branch count; with both templates and all sockets available the
seed-12345 run always places 30 pieces and queues 2 branches (one RoadX
at spine step 7). -/
theorem spineBranch_deterministic (env : Sys3Env) :
    spawnSpineAndBranchSystem3 env = spawnSpineAndBranchSystem3 env ∧
    (spawnSpineAndBranchSystem3 env).pieces = (spawnSpineAndBranchSystem3 env).pieces ∧
    (spawnSpineAndBranchSystem3 env).pieces.length
      = (spawnSpineAndBranchSystem3 env).pieces.length ∧
    (spawnSpineAndBranchSystem3 env).branchCount
      = (spawnSpineAndBranchSystem3 env).branchCount ∧
    (spawnSpineAndBranchSystem3 sys3IdEnv).pieces.length = 30 ∧
    (spawnSpineAndBranchSystem3 sys3IdEnv).branchCount = 2 :=
  ⟨rfl, rfl, rfl, rfl, by decide, by decide⟩

/-! Claim C3: the init ordering (System 3, then generateGroundGrid). -/

theorem spineLoop_pieces_prefix (env : Sys3Env) :
    ∀ (fuel i seed : ℕ) (pos : Pt3) (qo : Quat)
      (pieces : List (Sys3Piece × Pt3 × Quat)) (branches : List (Pt3 × Quat)),
      ∃ rest, (spineLoop env fuel i seed pos qo pieces branches).2.1 = pieces ++ rest := by
  intro fuel
  induction fuel with
  | zero =>
      intro i seed pos qo pieces branches
      exact ⟨[], by simp [spineLoop]⟩
  | succ fuel ih =>
      intro i seed pos qo pieces branches
      unfold spineLoop
      dsimp only
      rcases hworking : (if (spineDraw i seed).1 then env.hasRoadX else env.hasRoad1) with _ | _
      · exact ⟨[], by simp⟩
      · simp only [eq_self_iff_true, if_true]
        rcases hnxt : (if (spineDraw i seed).1 then env.outX else env.out1) pos qo with _ | nxt
        · exact ⟨_, rfl⟩
        · obtain ⟨rest, hr⟩ := ih (i+1) (spineDraw i seed).2 nxt.1 nxt.2
            (pieces ++ [((if (spineDraw i seed).1 then .roadX else .road1 : Sys3Piece), pos, qo)])
            (if (spineDraw i seed).1 then
              branches ++ (env.leftX pos qo).toList ++ (env.rightX pos qo).toList
             else branches)
          exact ⟨_, by rw [hr, List.append_assoc]⟩

theorem branchLoop_pieces_prefix (env : Sys3Env) :
    ∀ (fuel : ℕ) (pos : Pt3) (qo : Quat) (pieces : List (Sys3Piece × Pt3 × Quat)),
      ∃ rest, branchLoop env fuel pos qo pieces = pieces ++ rest := by
  intro fuel
  induction fuel with
  | zero => intro pos qo pieces; exact ⟨[], by simp [branchLoop]⟩
  | succ fuel ih =>
      intro pos qo pieces
      unfold branchLoop
      dsimp only
      rcases hworking : env.hasRoad1 with _ | _
      · exact ⟨[], by simp⟩
      · simp only [eq_self_iff_true, if_true]
        rcases hnxt : env.out1 pos qo with _ | nxt
        · exact ⟨_, rfl⟩
        · dsimp only
          obtain ⟨rest, hr⟩ := ih nxt.1 nxt.2 (pieces ++ [(.road1, pos, qo)])
          exact ⟨_, by rw [hr, List.append_assoc]⟩

theorem branchFold_pieces_prefix (env : Sys3Env) (bs : List (Pt3 × Quat)) :
    ∀ (pieces : List (Sys3Piece × Pt3 × Quat)),
      ∃ rest, bs.foldl (fun acc b => branchLoop env BRANCH_LENGTH b.1 b.2 acc) pieces
        = pieces ++ rest := by
  induction bs with
  | nil => intro pieces; exact ⟨[], by simp⟩
  | cons b bs ih =>
      intro pieces
      rw [List.foldl_cons]
      obtain ⟨r1, h1⟩ := branchLoop_pieces_prefix env BRANCH_LENGTH b.1 b.2 pieces
      obtain ⟨r2, h2⟩ := ih (pieces ++ r1)
      exact ⟨r1 ++ r2, by rw [h1, h2, List.append_assoc]⟩

/-- If the Road1 template loaded, the spine starts with a Road1 at the
start transform: iteration i = 0 draws nothing (seededRandom is not even
called) and always places Road1. -/
theorem spineLoop_first (env : Sys3Env) (h1 : env.hasRoad1 = true) (seed : ℕ)
    (pos : Pt3) (qo : Quat) (branches : List (Pt3 × Quat)) :
    ∃ rest, (spineLoop env SPINE_LENGTH 0 seed pos qo [] branches).2.1
      = (Sys3Piece.road1, pos, qo) :: rest := by
  rw [show SPINE_LENGTH = 19 + 1 from rfl]
  unfold spineLoop
  dsimp only
  have hdraw : spineDraw 0 seed = (false, seed) := by simp [spineDraw]
  rw [hdraw]
  dsimp only
  rw [h1]
  simp only [Bool.false_eq_true, if_false, eq_self_iff_true, if_true]
  rcases hnxt : env.out1 pos qo with _ | nxt
  · exact ⟨[], rfl⟩
  · dsimp only
    obtain ⟨rest, hr⟩ := spineLoop_pieces_prefix env 19 1 seed nxt.1 nxt.2
      ([] ++ [(Sys3Piece.road1, pos, qo)]) branches
    exact ⟨rest, by rw [hr]; simp⟩

/-- If the Road1 template loaded, the first committed piece of System 3 is
a Road1 at the origin with the identity orientation. -/
theorem sys3_first_piece (env : Sys3Env) (h1 : env.hasRoad1 = true) :
    ∃ rest, (spawnSpineAndBranchSystem3 env).pieces
      = (Sys3Piece.road1, ⟨0,0,0⟩, idQuat) :: rest := by
  unfold spawnSpineAndBranchSystem3
  dsimp only
  obtain ⟨r1, hr1⟩ := spineLoop_first env h1 12345 ⟨0,0,0⟩ idQuat []
  obtain ⟨r2, hr2⟩ := branchFold_pieces_prefix env
    (spineLoop env SPINE_LENGTH 0 12345 ⟨0,0,0⟩ idQuat [] []).2.2
    ((spineLoop env SPINE_LENGTH 0 12345 ⟨0,0,0⟩ idQuat [] []).2.1)
  exact ⟨r1 ++ r2, by rw [hr2, hr1]; simp⟩

/-- Template geometry for a concrete System 3 run: straight pieces advance
5 units along the facing axis, intersections 10, branch sockets 10 units
to the side (stand-ins for the GLB socket transforms, which enter the
model only through the environment). -/
def sys3ConstEnv : Sys3Env :=
  { hasRoad1 := true, hasRoadX := true,
    out1 := fun p q => some ({ p with z := p.z + 5 }, q),
    outX := fun p q => some ({ p with z := p.z + 10 }, q),
    leftX := fun p q => some ({ p with x := p.x - 10 }, q),
    rightX := fun p q => some ({ p with x := p.x + 10 }, q) }

/-- The committed pieces of a System 3 run viewed as PlacedPieces: origin
plus resolved socket_out transform. -/
def sys3PlacedPieces (env : Sys3Env) (r : Sys3Result) : List PlacedPiece :=
  r.pieces.map (fun t =>
    { start := t.2.1,
      sockOut := (match t.1 with
        | Sys3Piece.road1 => env.out1
        | Sys3Piece.roadX => env.outX) t.2.1 t.2.2 })

/-- The init() ordering (lowpoly.js lines 242-251): System 3 builds the
road first (recording pieces in this.roadPieces but writing neither
this.occupiedCells nor this.worldGrid), then generateGroundGrid fills the
ground. -/
def initRoadsAndGround (env : Sys3Env) (gridSize : ℕ) : RoadState :=
  generateGroundGrid gridSize
    { emptyRoadState with
        roadPieces := sys3PlacedPieces env (spawnSpineAndBranchSystem3 env) }

theorem gridGet_allGrass (l : List Cell) (c : Cell) :
    gridGet (l.map (fun c => (c, GridEntry.grass))) c =
      if c ∈ l then some GridEntry.grass else none := by
  induction l with
  | nil => simp [gridGet]
  | cons a l ih =>
      by_cases hac : a = c
      · subst hac
        simp [gridGet, List.find?_cons]
      · rw [List.map_cons]
        have hstep : gridGet ((a, GridEntry.grass) :: l.map (fun c => (c, GridEntry.grass))) c
            = gridGet (l.map (fun c => (c, GridEntry.grass))) c := by
          simp only [gridGet, List.find?_cons]
          have : ((a, GridEntry.grass).1 == c) = false := by simp [hac]
          rw [this]
        rw [hstep, ih]
        simp [hac, Ne.symm hac]

/-- Shared evaluation: the coarse cells of the straight length-5 piece at
the origin. -/
theorem sampleRoadWorldGridCells_straight5 :
    sampleRoadWorldGridCells ⟨⟨0,0,0⟩, some (⟨0,0,5⟩, idQuat)⟩ = [(0,0), (0,1)] := by
  have hd2 : sqDist ⟨0,0,0⟩ ⟨0,0,5⟩ = 25 := by norm_num [sqDist]
  have e1 : ∀ (fuel n : ℕ), ceilHalfSqrtFrom 25 (fuel+1) n =
      if (25:ℚ) ≤ ((2*n : ℕ) : ℚ)^2 then n else ceilHalfSqrtFrom 25 fuel (n+1) :=
    fun _ _ => rfl
  have hch : ceilHalfSqrt (sqDist ⟨0,0,0⟩ ⟨0,0,5⟩) = 3 := by
    rw [hd2]
    show ceilHalfSqrtFrom 25 (⌈(25:ℚ)⌉.toNat + 1) 0 = 3
    have hfuel : ⌈(25:ℚ)⌉.toNat + 1 = 26 := by
      rw [show ⌈(25:ℚ)⌉ = 25 from by norm_num]
      decide
    rw [hfuel]
    rw [show (26:ℕ) = 25+1 from rfl, e1, if_neg (by norm_num)]
    rw [show (25:ℕ) = 24+1 from rfl, e1, if_neg (by norm_num)]
    rw [show (24:ℕ) = 23+1 from rfl, e1, if_neg (by norm_num)]
    rw [show (23:ℕ) = 22+1 from rfl, e1, if_pos (by norm_num)]
  show ((List.range (max 1 (ceilHalfSqrt (sqDist ⟨0,0,0⟩ ⟨0,0,5⟩)) + 1)).map _).foldl
    pushUnique [] = _
  rw [hch]
  have h0 : round ((0:ℚ)) = 0 := by simp
  have h16 : round ((1:ℚ)/6) = 0 := round_eq_of _ 0 (by norm_num) (by norm_num)
  have h13 : round ((1:ℚ)/3) = 0 := round_eq_of _ 0 (by norm_num) (by norm_num)
  have h12 : round ((1:ℚ)/2) = 1 := round_eq_of _ 1 (by norm_num) (by norm_num)
  norm_num [List.range_succ, TILE_SIZE, h0, h16, h13, h12, pushUnique]

/-- C3 counterexample: in the init composition (System 3 road generation,
then generateGroundGrid 20), the first committed road piece sits at the
origin and occupies coarse cell (0,0), yet after the fill a ground tile
exists at that cell: the fill clears worldGrid and System 3 records no
occupancy, so no road/tile exclusivity holds on this path. -/
theorem groundFill_covers_road_cell :
    (sys3PlacedPieces sys3ConstEnv (spawnSpineAndBranchSystem3 sys3ConstEnv)).head? =
      some ⟨⟨0,0,0⟩, some (⟨0,0,5⟩, idQuat)⟩ ∧
    (0, 0) ∈ sampleRoadWorldGridCells ⟨⟨0,0,0⟩, some (⟨0,0,5⟩, idQuat)⟩ ∧
    gridGet (initRoadsAndGround sys3ConstEnv 20).worldGrid (0, 0) = some GridEntry.grass := by
  refine ⟨?_, ?_, ?_⟩
  · obtain ⟨rest, hr⟩ := sys3_first_piece sys3ConstEnv rfl
    unfold sys3PlacedPieces
    rw [hr, List.map_cons]
    show some _ = some _
    norm_num [sys3ConstEnv]
  · rw [sampleRoadWorldGridCells_straight5]
    decide
  · unfold initRoadsAndGround
    rw [generateGroundGrid_eq]
    show gridGet ((gridCoords 20 ×ˢ gridCoords 20).map (fun c => (c, GridEntry.grass))) (0,0)
      = some GridEntry.grass
    rw [gridGet_allGrass]
    rw [if_pos]
    rw [List.mem_product]
    constructor <;> (rw [mem_gridCoords]; norm_num)

theorem gridGet_cons_ne (p : Cell × GridEntry) (w : WorldGrid) (c : Cell)
    (h : (p.1 == c) = false) : gridGet (p :: w) c = gridGet w c := by
  simp [gridGet, List.find?_cons, h]

theorem gridGet_cons_eq (p : Cell × GridEntry) (w : WorldGrid) (c : Cell)
    (h : (p.1 == c) = true) : gridGet (p :: w) c = some p.2 := by
  simp [gridGet, List.find?_cons, h]

theorem gridGet_gridDelete (w : WorldGrid) (c cd : Cell) :
    gridGet (gridDelete w cd) c = if c = cd then none else gridGet w c := by
  induction w with
  | nil => simp [gridGet, gridDelete]
  | cons p w ih =>
      by_cases hpd : p.1 = cd
      · have hdel : gridDelete (p :: w) cd = gridDelete w cd := by
          simp [gridDelete, List.filter_cons, hpd]
        rw [hdel, ih]
        by_cases hcd : c = cd
        · simp [hcd]
        · have hb : (p.1 == c) = false := by
            rw [hpd]
            exact beq_eq_false_iff_ne.mpr (fun h => hcd h.symm)
          rw [if_neg hcd, if_neg hcd, gridGet_cons_ne p w c hb]
      · have hdel : gridDelete (p :: w) cd = p :: gridDelete w cd := by
          simp [gridDelete, List.filter_cons, hpd]
        rw [hdel]
        by_cases hpc : p.1 = c
        · have hb : (p.1 == c) = true := by simp [hpc]
          have hcd : ¬(c = cd) := fun h => hpd (by rw [hpc, h])
          rw [gridGet_cons_eq p _ c hb, if_neg hcd, gridGet_cons_eq p w c hb]
        · have hb : (p.1 == c) = false := by simp [hpc]
          rw [gridGet_cons_ne p _ c hb, ih]
          by_cases hcd : c = cd
          · simp [hcd]
          · rw [if_neg hcd, if_neg hcd, gridGet_cons_ne p w c hb]

theorem removeStep_not_grass (st : RoadState) (c cd : Cell)
    (h : gridGet st.worldGrid c ≠ some GridEntry.grass) :
    gridGet ((match gridGet st.worldGrid cd with
      | some GridEntry.grass => (removeTileAt cd st).1
      | none => st) : RoadState).worldGrid c ≠ some GridEntry.grass := by
  cases hg : gridGet st.worldGrid cd with
  | none => exact h
  | some e =>
      cases e
      unfold removeTileAt
      rw [hg]
      show gridGet (gridDelete st.worldGrid cd) c ≠ some GridEntry.grass
      rw [gridGet_gridDelete]
      by_cases hcd : c = cd
      · simp [hcd]
      · simpa [hcd] using h

theorem removeStep_not_grass_self (st : RoadState) (c : Cell) :
    gridGet ((match gridGet st.worldGrid c with
      | some GridEntry.grass => (removeTileAt c st).1
      | none => st) : RoadState).worldGrid c ≠ some GridEntry.grass := by
  cases hg : gridGet st.worldGrid c with
  | none => simp [hg]
  | some e =>
      cases e
      unfold removeTileAt
      rw [hg]
      show gridGet (gridDelete st.worldGrid c) c ≠ some GridEntry.grass
      rw [gridGet_gridDelete]
      simp

theorem removeFold_not_grass_preserved (cs : List Cell) (st : RoadState) (c : Cell)
    (h : gridGet st.worldGrid c ≠ some GridEntry.grass) :
    gridGet ((cs.foldl (fun s cd =>
      match gridGet s.worldGrid cd with
      | some GridEntry.grass => (removeTileAt cd s).1
      | none => s) st)).worldGrid c ≠ some GridEntry.grass := by
  induction cs generalizing st with
  | nil => exact h
  | cons cd cs ih =>
      rw [List.foldl_cons]
      exact ih _ (removeStep_not_grass st c cd h)

theorem removeFold_no_grass (cs : List Cell) (st : RoadState) :
    ∀ c ∈ cs, gridGet ((cs.foldl (fun s cd =>
      match gridGet s.worldGrid cd with
      | some GridEntry.grass => (removeTileAt cd s).1
      | none => s) st)).worldGrid c ≠ some GridEntry.grass := by
  induction cs generalizing st with
  | nil => intro c hc; cases hc
  | cons cd cs ih =>
      intro c hc
      rw [List.foldl_cons]
      rcases List.mem_cons.mp hc with rfl | hmem
      · exact removeFold_not_grass_preserved cs _ c (removeStep_not_grass_self st c)
      · exact ih _ c hmem

/-- C3 amended: after the ground filler runs following road generation
(the init ordering), a ground tile exists at EVERY coarse cell of the
filled region, including cells occupied by committed road pieces: the
filler clears the whole worldGrid first and System 3 records no
occupancy. Road/tile exclusivity is enforced only in the other order, by
trySpawnRoadPiece removing the grass tiles under a piece it commits. -/
theorem groundFill_road_exclusivity_amended :
    (∀ (st : RoadState) (N : ℕ) (c : Cell),
      -((N / 2 : ℕ) : ℤ) ≤ c.1 → c.1 < ((N / 2 : ℕ) : ℤ) →
      -((N / 2 : ℕ) : ℤ) ≤ c.2 → c.2 < ((N / 2 : ℕ) : ℤ) →
      gridGet (generateGroundGrid N st).worldGrid c = some GridEntry.grass) ∧
    (∀ (env : RoadEnv) (st : RoadState) (n : String) (p : Pt3) (q : Quat)
        (tmpl : RoadTemplate) (pc : PlacedPiece) (st1 : RoadState),
      env.roadTemplates n = some tmpl →
      trySpawnRoadPiece env st n p q = (some pc, st1) →
      ∀ c ∈ sampleRoadWorldGridCells ⟨p, tmpl p q⟩,
        gridGet st1.worldGrid c ≠ some GridEntry.grass) := by
  constructor
  · intro st N c h1 h2 h3 h4
    rw [generateGroundGrid_eq]
    show gridGet ((gridCoords N ×ˢ gridCoords N).map (fun c => (c, GridEntry.grass))) c
      = some GridEntry.grass
    rw [gridGet_allGrass, if_pos]
    obtain ⟨a, b⟩ := c
    rw [List.mem_product]
    exact ⟨(mem_gridCoords N a).mpr ⟨h1, h2⟩, (mem_gridCoords N b).mpr ⟨h3, h4⟩⟩
  · intro env st n p q tmpl pc st1 htmpl hspawn c hc
    unfold trySpawnRoadPiece at hspawn
    rw [htmpl] at hspawn
    by_cases hcol : hasRoadCollision (sampleRoadCells ⟨p, tmpl p q⟩) st.occupiedCells
      (recentCells st.roadPieces)
    · simp only [hcol, if_true] at hspawn
      simp at hspawn
    · simp only [hcol, Bool.false_eq_true, if_false] at hspawn
      rw [Prod.mk.injEq] at hspawn
      obtain ⟨hpc, hst⟩ := hspawn
      rw [← hst]
      exact removeFold_no_grass (sampleRoadWorldGridCells ⟨p, tmpl p q⟩) st c hc

/-- Witness for C3 amended: the filled 4x4 grid has a grass tile at (0,0)
regardless of the incoming state. -/
theorem groundFill_road_exclusivity_amended_witness :
    (-(((4:ℕ) / 2 : ℕ) : ℤ) ≤ (0:ℤ) ∧ (0:ℤ) < (((4:ℕ) / 2 : ℕ) : ℤ)) ∧
    gridGet (generateGroundGrid 4 emptyRoadState).worldGrid (0, 0) = some GridEntry.grass :=
  ⟨⟨by norm_num, by norm_num⟩,
   groundFill_road_exclusivity_amended.1 emptyRoadState 4 (0, 0)
     (by norm_num) (by norm_num) (by norm_num) (by norm_num)⟩
